import Mathlib

/-!
Verification of the core matching/retrieval engine of the Resume–JD matching
application (src/app.py) against its natural-language specification.

The application is a single Streamlit script.  Its core logic is:

* resource loading (`load_all_resources`, app.py lines 18–38): job table,
  precomputed job embeddings, skill vocabulary, knowledge-base paragraphs and
  their embeddings, all held as process-wide shared state;
* the resume-matching handler (app.py lines 126–159): encode the resume,
  compute cosine similarities against all job embeddings, write the rounded
  percentage column into the shared DataFrame, sort descending, take the top
  five rows, and display each row that passes the threshold-and-matched-skill
  gate, with a "no results" warning when none passes and a validation warning
  on empty input;
* the knowledge-base answer handler (app.py lines 179–186): encode the query,
  compute cosine similarities against the knowledge-base embeddings, and show
  the paragraph at `sims.argmax()`, with a validation warning on empty input.

The sentence-embedding model (`SentenceTransformer.encode`) and floating-point
cosine similarity (`sklearn cosine_similarity`) are external numeric
components; they are modelled as parameters `encode : String → V` and
`sim : V → V → ℚ` (with `cosine_similarity([q], embs)[0]` becoming
`embs.map (sim q)`).  Everything downstream of them — parsing, rounding,
sorting, filtering, skill extraction, argmax selection, and the mutation of
the shared table — is embedded faithfully and executably below.

Python string primitives are modelled over `List Char` (ASCII fragment:
`str.lower()` lowercases A–Z, `str.strip()` strips ASCII whitespace; the
claims under verification only involve ASCII text).
-/

/-! ### Models of the Python string primitives used by app.py -/

/-- Characters removed by Python `str.strip()` (ASCII whitespace fragment). -/
def pyIsSpace (c : Char) : Bool :=
  c = ' ' || c = '\t' || c = '\n' || c = '\r' || c = '\x0b' || c = '\x0c'

/-- Python `str.strip()`: drop leading and trailing whitespace. -/
def pyStrip (s : String) : String :=
  ⟨((s.data.dropWhile pyIsSpace).reverse.dropWhile pyIsSpace).reverse⟩

/-- Python `str.lower()` (ASCII fragment, via `Char.toLower`). -/
def pyLower (s : String) : String := ⟨s.data.map Char.toLower⟩

/-- Python `needle in hay` on strings: contiguous-substring containment.
Note `pyIn "" hay = true` for every `hay`, exactly as in Python. -/
def pyIn (needle hay : String) : Bool := decide (needle.data <:+: hay.data)

/-! ### Data model -/

/-- One row of the job table `jobs_processed.csv` (the two columns the
handler reads: `row['Job Title']` and `row['clean_description']`). -/
structure Job where
  title : String
  clean_description : String
deriving DecidableEq

/-- The process-wide shared state built by `load_all_resources`
(app.py line 38).  `matchPct` is the derived DataFrame column
`df["match_percentage"]`: absent (`none`) before the first request and
overwritten by every non-empty match request (app.py line 131). -/
structure AppState (V : Type) where
  dfRows : List Job
  matchPct : Option (List ℚ)
  jobEmbs : List V
  skillsList : List String
  kbParagraphs : List String
  kbEmbs : List V
deriving DecidableEq

/-- Ranked job as displayed in one expander (app.py lines 146–154). -/
structure RankedJob where
  title : String
  clean_description : String
  pct : ℚ
  matched : Finset String
  missing : Finset String
deriving DecidableEq

/-- Observable outcome of the Home-section handler (app.py lines 126–159). -/
inductive MatchOutput where
  /-- Rendering of `st.warning("Please enter text to analyze.")`, line 159. -/
  | emptyWarning : MatchOutput
  /-- Rendering of `st.warning("❌ No matching local jobs found ...")`, line 157. -/
  | noResults : MatchOutput
  /-- the sequence of expanders rendered by the loop, lines 139–154. -/
  | results (jobs : List RankedJob) : MatchOutput
  /-- an uncaught Python exception escaping the handler (produced only by
  the validated variant `matchResumeChecked`; the plain `matchResume` models
  the regime in which `cosine_similarity` succeeds). -/
  | raised (msg : String) : MatchOutput
deriving DecidableEq

/-- Observable outcome of the AI-section handler (app.py lines 179–186). -/
inductive AnswerOutput where
  /-- Rendering of the warning at line 186 of app.py. -/
  | emptyWarning : AnswerOutput
  /-- Rendering of the answer info box at line 184 of app.py. -/
  | answered (text : String) : AnswerOutput
  /-- an uncaught Python exception escaping the handler. -/
  | raised (msg : String) : AnswerOutput
deriving DecidableEq

/-! ### Resource loading (app.py lines 18–38) -/

/-- Greedy leftmost scan behind `pySplit`.  The fuel argument (instantiated
with the input length plus one, which always suffices: every step consumes
fuel one-for-one while consuming at least as much input) keeps the recursion
structural, so that the kernel can evaluate it. -/
def splitOnFuel (sep : List Char) : ℕ → List Char → List Char → List (List Char)
  | 0, _, acc => [acc.reverse]
  | _ + 1, [], acc => [acc.reverse]
  | fuel + 1, c :: rest, acc =>
    if sep.isPrefixOf (c :: rest) then
      acc.reverse :: splitOnFuel sep fuel (List.drop (sep.length - 1) rest) []
    else
      splitOnFuel sep fuel rest (c :: acc)

/-- Python `s.split(sep)` for a non-empty separator: split at each leftmost
non-overlapping occurrence of `sep`; adjacent separators yield empty pieces,
and the empty string yields `[""]`. -/
def pySplit (s sep : String) : List String :=
  (splitOnFuel sep.data (s.data.length + 1) s.data []).map (fun l => ⟨l⟩)

/-- Parsing of `skills.txt` (line 29):
`[s.strip().lower() for s in f if s.strip()]` (file iteration yields
newline-separated lines; the strip removes the terminators). -/
def loadSkills (content : String) : List String :=
  ((pySplit content "\n").filter (fun s => pyStrip s ≠ "")).map
    (fun s => pyLower (pyStrip s))

/-- Parsing of `knowledge_base.txt` (line 33):
`[p.strip() for p in f.read().split("\n\n") if p.strip()]`. -/
def loadParagraphs (content : String) : List String :=
  ((pySplit content "\n\n").filter (fun p => pyStrip p ≠ "")).map
    (fun p => pyStrip p)

/-- Model of `load_all_resources` (app.py lines 18–36).  The CSV rows and the
embedding matrix rows are taken as already-parsed inputs; the knowledge-base
embeddings are `model.encode(paragraphs)` (line 34), i.e. one encoding per
paragraph.  The function performs no validation whatsoever: it accepts empty
corpora, and `matchPct` starts absent. -/
def load_all_resources {V : Type} (encode : String → V) (dfRows : List Job)
    (jobEmbs : List V) (skillsContent kbContent : String) : AppState V :=
  { dfRows := dfRows
    matchPct := none
    jobEmbs := jobEmbs
    skillsList := loadSkills skillsContent
    kbParagraphs := loadParagraphs kbContent
    kbEmbs := (loadParagraphs kbContent).map encode }

/-! ### SkillExtractor -/

/-- The skill-extraction comprehension used at app.py lines 132 and 140:
`{s for s in skills_list if s in text.lower()}`. -/
def extract (text : String) (vocab : List String) : Finset String :=
  (vocab.filter (fun s => pyIn s (pyLower text))).toFinset

/-! ### Rounding and similarity rows -/

/-- numpy `.round` to the nearest integer (round half to even). -/
def roundHalfEven (q : ℚ) : ℤ :=
  if q - (⌊q⌋ : ℚ) < 1/2 then ⌊q⌋
  else if 1/2 < q - (⌊q⌋ : ℚ) then ⌊q⌋ + 1
  else if ⌊q⌋ % 2 = 0 then ⌊q⌋ else ⌊q⌋ + 1

/-- numpy `.round(2)`: round to two decimal places, half to even. -/
def round2 (q : ℚ) : ℚ := (roundHalfEven (q * 100) : ℚ) / 100

/-- The row `cosine_similarity([q_emb], embs)[0]` of pairwise similarities of
one query embedding against a corpus embedding matrix, as returned by a
*successful* call.  sklearn validates its inputs first and raises
`ValueError` on a zero-sample matrix; that error path is modelled separately
by `cosSimChecked` below. -/
def simsRow {V : Type} (sim : V → V → ℚ) (q : V) (embs : List V) : List ℚ :=
  embs.map (sim q)

/-- The column `df["match_percentage"] = (sims * 100).round(2)` computed at
app.py lines 129–131 for a given resume text. -/
def matchPcts {V : Type} (encode : String → V) (sim : V → V → ℚ)
    (st : AppState V) (resumeText : String) : List ℚ :=
  (simsRow sim (encode resumeText) st.jobEmbs).map (fun s => round2 (s * 100))

/-! ### Model of `df.sort_values("match_percentage", ascending=False)`

pandas `DataFrame.sort_values` on a single column computes an argsort of the
column in ascending order and, for `ascending=False`, reverses that indexer
(`pandas.core.sorting.nargsort`: `indexer = non_nans.argsort(kind=kind)`,
then `indexer = indexer[::-1]`).  Which permutation the argsort picks among
tied values depends on the sort kind: the default `quicksort` is an introsort
that degenerates to a stable insertion sort below its small-array cutoff
(16 elements) but is not stable above it, so for large tables the program
fixes no particular tie order.  An executable model must still pick one
concrete refinement; we sort the position-tagged rows by the total
lexicographic key (value, original position) — the stable refinement — and
reverse.  Every universal theorem about this sort below relies only on the
properties shared by all refinements (the output is a permutation of the
rows and is ordered descending by value); the tie order of the model is
relied upon only at one concrete two-row input, where numpy's argsort is the
stable insertion sort and the refinement is exact. -/

/-- Ascending comparison on position-tagged rows: by `match_percentage`
value, ties by original position. -/
def pctLE (a b : ℕ × (Job × ℚ)) : Bool :=
  decide (a.2.2 < b.2.2) || (decide (a.2.2 = b.2.2) && decide (a.1 ≤ b.1))

/-- The descending sorted table, with each row still tagged by its original
position in the DataFrame. -/
def scoreEnum (rows : List (Job × ℚ)) : List (ℕ × (Job × ℚ)) :=
  (rows.enum.mergeSort pctLE).reverse

/-- Model of `df.sort_values("match_percentage", ascending=False)` (line 138),
restricted to the columns the handler reads. -/
def sort_values_desc (rows : List (Job × ℚ)) : List (Job × ℚ) :=
  (scoreEnum rows).map (fun p => p.2)

/-! ### The resume-matching handler (app.py lines 126–159) -/

/-- The constant `min_threshold = 35.0` (app.py line 135). -/
def min_threshold : ℚ := 35

/-- The job table zipped with its freshly computed `match_percentage`
column — the data `sort_values` runs on. -/
def scoreRows {V : Type} (encode : String → V) (sim : V → V → ℚ)
    (st : AppState V) (resumeText : String) : List (Job × ℚ) :=
  st.dfRows.zip (matchPcts encode sim st resumeText)

/-- Per-row computation of the loop body (app.py lines 140–147):
`job_skills = {s for s in skills_list if s in str(row['clean_description']).lower()}`,
`matched = job_skills & user_skills`, `missing = job_skills - user_skills`. -/
def rankRow (skills : List String) (userSkills : Finset String)
    (jp : Job × ℚ) : RankedJob :=
  { title := jp.1.title
    clean_description := jp.1.clean_description
    pct := jp.2
    matched := extract jp.1.clean_description skills ∩ userSkills
    missing := extract jp.1.clean_description skills \ userSkills }

/-- The gate of app.py line 144:
`row['match_percentage'] >= min_threshold and len(matched) > 0`. -/
def passesGate (rj : RankedJob) : Bool :=
  decide (min_threshold ≤ rj.pct) && decide (0 < rj.matched.card)

/-- The five rows the loop iterates over (`sorted_df.head(5)`, line 139),
already ranked with matched/missing skill sets. -/
def top5Ranked {V : Type} (encode : String → V) (sim : V → V → ℚ)
    (st : AppState V) (resumeText : String) : List RankedJob :=
  ((sort_values_desc (scoreRows encode sim st resumeText)).take 5).map
    (rankRow st.skillsList (extract resumeText st.skillsList))

/-- The jobs actually rendered as expanders: the head-5 rows that pass the
gate, in display order (app.py lines 139–154). -/
def matchDisplayed {V : Type} (encode : String → V) (sim : V → V → ℚ)
    (st : AppState V) (resumeText : String) : List RankedJob :=
  (top5Ranked encode sim st resumeText).filter passesGate

/-- The Home-section request handler (app.py lines 126–159), as an explicit
state-passing function: it returns the shared state as left by the request
together with the observable outcome.  For non-empty input the returned
state carries the overwritten `df["match_percentage"]` column (line 131);
that column write is the only mutation of shared state in the handler. -/
def matchResume {V : Type} (encode : String → V) (sim : V → V → ℚ)
    (st : AppState V) (resumeText : String) : AppState V × MatchOutput :=
  if pyStrip resumeText = "" then (st, .emptyWarning)
  else
    let pcts := matchPcts encode sim st resumeText
    let displayed := matchDisplayed encode sim st resumeText
    ({ st with matchPct := some pcts },
      if displayed.isEmpty then .noResults else .results displayed)

/-! ### The knowledge-base answer handler (app.py lines 179–186) -/

/-- numpy `ndarray.argmax` on a one-dimensional array: the index of the
*first* occurrence of the maximum (the C loop updates its running best only
on a strictly greater element); `ValueError` on an empty array, modelled as
`none`. -/
def argmaxAux : ℕ × ℚ → List (ℕ × ℚ) → ℕ × ℚ
  | best, [] => best
  | best, p :: ps => argmaxAux (if best.2 < p.2 then p else best) ps

/-- Index of the first occurrence of the maximum of a list, `none` if empty
(numpy `argmax`). -/
def argmaxIdx (l : List ℚ) : Option ℕ :=
  match l.enum with
  | [] => none
  | p :: ps => some (argmaxAux p ps).1

/-- The similarity row `cosine_similarity([q_emb], kb_embeddings)[0]`
(app.py line 183). -/
def kbSims {V : Type} (encode : String → V) (sim : V → V → ℚ)
    (st : AppState V) (query : String) : List ℚ :=
  simsRow sim (encode query) st.kbEmbs

/-- The AI-section request handler (app.py lines 179–186), state-passing like
`matchResume`, in the regime where `cosine_similarity` succeeds.  The
handler never assigns to any shared variable, so the state component is
returned unchanged.  In the real program an empty knowledge-base embedding
matrix makes `cosine_similarity` itself raise at line 183, one step before
`argmax`; that validation is modelled by `answerChecked` below, which agrees
with this function on every state with a non-empty matrix
(`answerChecked_eq`).  The `raised` branches here cover out-of-range
indexing and the degenerate empty-similarity input of this total model. -/
def answer {V : Type} (encode : String → V) (sim : V → V → ℚ)
    (st : AppState V) (query : String) : AppState V × AnswerOutput :=
  if pyStrip query = "" then (st, .emptyWarning)
  else
    match argmaxIdx (kbSims encode sim st query) with
    | none => (st, .raised "attempt to get argmax of an empty sequence")
    | some i =>
      match st.kbParagraphs[i]? with
      | some p => (st, .answered p)
      | none => (st, .raised "list index out of range")

/-! ### sklearn input validation (the checked handler variants)

sklearn's `cosine_similarity` validates its inputs (`check_pairwise_arrays`,
`check_array`) before computing anything and raises `ValueError` when an
input matrix has zero samples.  The definitions below add that validation
in front of the two handlers, so the degenerate empty-corpus configurations
are modelled where the real program actually fails: at the
`cosine_similarity` calls of lines 130 and 183, before any warning, column
write or `argmax` is reached.  On every state whose corpus is non-empty the
checked handlers coincide with the plain ones (`matchResumeChecked_eq`,
`answerChecked_eq`), so the claims proved about the plain handlers describe
exactly the same program behaviour there. -/

/-- Model of `cosine_similarity([q], embs)[0]` including sklearn's input
validation: `ValueError` (message abbreviated) on a zero-sample embedding
matrix, otherwise the similarity row `simsRow`. -/
def cosSimChecked {V : Type} (sim : V → V → ℚ) (q : V) (embs : List V) :
    Except String (List ℚ) :=
  if embs.isEmpty then Except.error "ValueError: Found array with 0 sample(s)"
  else Except.ok (simsRow sim q embs)

/-- The Home-section handler with sklearn's input validation: with an empty
job-embedding matrix the `cosine_similarity` call of line 130 raises before
the column write of line 131 and before any warning; otherwise the handler
behaves exactly like `matchResume`. -/
def matchResumeChecked {V : Type} (encode : String → V) (sim : V → V → ℚ)
    (st : AppState V) (resumeText : String) : AppState V × MatchOutput :=
  if pyStrip resumeText = "" then (st, .emptyWarning)
  else
    match cosSimChecked sim (encode resumeText) st.jobEmbs with
    | Except.error msg => (st, .raised msg)
    | Except.ok sims =>
      let pcts := sims.map (fun s => round2 (s * 100))
      let displayed := matchDisplayed encode sim st resumeText
      ({ st with matchPct := some pcts },
        if displayed.isEmpty then .noResults else .results displayed)

/-- The AI-section handler with sklearn's input validation: with an empty
knowledge-base embedding matrix the `cosine_similarity` call of line 183
raises before `argmax` runs; otherwise the handler behaves exactly like
`answer`. -/
def answerChecked {V : Type} (encode : String → V) (sim : V → V → ℚ)
    (st : AppState V) (query : String) : AppState V × AnswerOutput :=
  if pyStrip query = "" then (st, .emptyWarning)
  else
    match cosSimChecked sim (encode query) st.kbEmbs with
    | Except.error msg => (st, .raised msg)
    | Except.ok sims =>
      match argmaxIdx sims with
      | none => (st, .raised "attempt to get argmax of an empty sequence")
      | some i =>
        match st.kbParagraphs[i]? with
        | some p => (st, .answered p)
        | none => (st, .raised "list index out of range")

theorem matchResumeChecked_eq {V : Type} (encode : String → V)
    (sim : V → V → ℚ) (st : AppState V) (t : String) (h : st.jobEmbs ≠ []) :
    matchResumeChecked encode sim st t = matchResume encode sim st t := by
  by_cases hs : pyStrip t = ""
  · rw [matchResumeChecked, matchResume, if_pos hs, if_pos hs]
  · have he : ¬ st.jobEmbs.isEmpty = true := by
      simpa [List.isEmpty_iff] using h
    rw [matchResumeChecked, matchResume, if_neg hs, if_neg hs, cosSimChecked,
      if_neg he]
    rfl

theorem answerChecked_eq {V : Type} (encode : String → V) (sim : V → V → ℚ)
    (st : AppState V) (q : String) (h : st.kbEmbs ≠ []) :
    answerChecked encode sim st q = answer encode sim st q := by
  by_cases hs : pyStrip q = ""
  · rw [answerChecked, answer, if_pos hs, if_pos hs]
  · have he : ¬ st.kbEmbs.isEmpty = true := by
      simpa [List.isEmpty_iff] using h
    rw [answerChecked, answer, if_neg hs, if_neg hs, cosSimChecked, if_neg he]
    rfl

/-! ### Helper lemmas: argmax -/

theorem argmaxAux_mem (best : ℕ × ℚ) (ps : List (ℕ × ℚ)) :
    argmaxAux best ps ∈ best :: ps := by
  induction ps generalizing best with
  | nil => simp [argmaxAux]
  | cons p ps ih =>
    rw [argmaxAux]
    rcases List.mem_cons.mp (ih (if best.2 < p.2 then p else best)) with h | h
    · rw [h]
      split
      · exact List.mem_cons_of_mem _ (List.mem_cons_self _ _)
      · exact List.mem_cons_self _ _
    · exact List.mem_cons_of_mem _ (List.mem_cons_of_mem _ h)

theorem argmaxAux_le (best : ℕ × ℚ) (ps : List (ℕ × ℚ)) :
    ∀ q ∈ best :: ps, q.2 ≤ (argmaxAux best ps).2 := by
  induction ps generalizing best with
  | nil =>
    intro q hq
    rw [List.mem_singleton] at hq
    subst hq
    simp [argmaxAux]
  | cons p ps ih =>
    intro q hq
    rw [argmaxAux]
    have hb : best.2 ≤ (if best.2 < p.2 then p else best).2 := by
      split
      · exact le_of_lt (by assumption)
      · exact le_refl _
    have hp : p.2 ≤ (if best.2 < p.2 then p else best).2 := by
      split
      · exact le_refl _
      · exact le_of_not_lt (by assumption)
    rcases List.mem_cons.mp hq with rfl | hq'
    · exact le_trans hb (ih _ _ (List.mem_cons_self _ _))
    rcases List.mem_cons.mp hq' with rfl | hq''
    · exact le_trans hp (ih _ _ (List.mem_cons_self _ _))
    · exact ih _ _ (List.mem_cons_of_mem _ hq'')

theorem argmaxAux_first (best : ℕ × ℚ) (ps : List (ℕ × ℚ))
    (h : (best :: ps).Pairwise (fun a b => a.1 < b.1)) :
    ∀ q ∈ best :: ps, q.2 = (argmaxAux best ps).2 → (argmaxAux best ps).1 ≤ q.1 := by
  induction ps generalizing best with
  | nil =>
    intro q hq _
    rw [List.mem_singleton] at hq
    subst hq
    simp [argmaxAux]
  | cons p ps ih =>
    intro q hq heq
    rw [argmaxAux] at heq ⊢
    have hh := List.pairwise_cons.mp h
    have hp' := List.pairwise_cons.mp hh.2
    by_cases hlt : best.2 < p.2
    · rw [if_pos hlt] at heq ⊢
      rcases List.mem_cons.mp hq with rfl | hq'
      · exfalso
        have h1 : p.2 ≤ (argmaxAux p ps).2 :=
          argmaxAux_le p ps p (List.mem_cons_self _ _)
        have h2 := lt_of_lt_of_le hlt h1
        rw [heq] at h2
        exact lt_irrefl _ h2
      · exact ih p hh.2 q hq' heq
    · rw [if_neg hlt] at heq ⊢
      have hpair : (best :: ps).Pairwise (fun a b => a.1 < b.1) := by
        refine List.pairwise_cons.mpr ⟨?_, hp'.2⟩
        intro a ha
        exact hh.1 a (List.mem_cons_of_mem _ ha)
      rcases List.mem_cons.mp hq with rfl | hq'
      · exact ih q hpair q (List.mem_cons_self _ _) heq
      rcases List.mem_cons.mp hq' with rfl | hq''
      · have h1 : best.2 ≤ (argmaxAux best ps).2 :=
          argmaxAux_le best ps best (List.mem_cons_self _ _)
        have h2 : q.2 ≤ best.2 := le_of_not_lt hlt
        have h3 : best.2 = (argmaxAux best ps).2 :=
          le_antisymm h1 (heq ▸ h2)
        have h4 := ih best hpair best (List.mem_cons_self _ _) h3
        have h5 : best.1 < q.1 := hh.1 q (List.mem_cons_self _ _)
        exact le_trans h4 (le_of_lt h5)
      · exact ih best hpair q (List.mem_cons_of_mem _ hq'') heq

theorem enum_pairwise_lt (l : List ℚ) :
    l.enum.Pairwise (fun a b => a.1 < b.1) := by
  have h1 : (l.enum.map Prod.fst).Pairwise (· < ·) := by
    rw [List.enum_map_fst]
    exact List.pairwise_lt_range _
  exact List.pairwise_map.mp h1

theorem argmaxIdx_spec (l : List ℚ) (hl : l ≠ []) :
    ∃ k v, argmaxIdx l = some k ∧ l[k]? = some v ∧
      (∀ x ∈ l, x ≤ v) ∧ ∀ j w, l[j]? = some w → w = v → k ≤ j := by
  obtain ⟨p, ps, henum⟩ : ∃ p ps, l.enum = p :: ps := by
    cases hE : l.enum with
    | nil =>
      exfalso
      apply hl
      have h2 := congrArg (List.map Prod.snd) hE
      rw [List.enum_map_snd] at h2
      simpa using h2
    | cons p ps => exact ⟨p, ps, rfl⟩
  have hmem : argmaxAux p ps ∈ l.enum := by
    rw [henum]
    exact argmaxAux_mem p ps
  have hidx := enum_pairwise_lt l
  refine ⟨(argmaxAux p ps).1, (argmaxAux p ps).2, ?_, ?_, ?_, ?_⟩
  · rw [argmaxIdx, henum]
  · exact List.mem_enum_iff_getElem?.mp hmem
  · intro x hx
    obtain ⟨i, hi⟩ := List.mem_iff_getElem?.mp hx
    have hmemi : (i, x) ∈ l.enum := List.mem_enum_iff_getElem?.mpr hi
    rw [henum] at hmemi
    exact argmaxAux_le p ps (i, x) hmemi
  · intro j w hj hw
    have hmemj : (j, w) ∈ l.enum := List.mem_enum_iff_getElem?.mpr hj
    rw [henum] at hmemj hidx
    exact argmaxAux_first p ps hidx (j, w) hmemj (by simpa using hw)

/-! ### Helper lemmas: the answer handler -/

theorem answer_fst {V : Type} (encode : String → V) (sim : V → V → ℚ)
    (st : AppState V) (q : String) : (answer encode sim st q).1 = st := by
  rw [answer]
  by_cases h : pyStrip q = ""
  · rw [if_pos h]
  · rw [if_neg h]
    rcases h2 : argmaxIdx (kbSims encode sim st q) with _ | i
    · rfl
    · rcases h3 : st.kbParagraphs[i]? with _ | p <;> simp [h3]

theorem answer_spec {V : Type} (encode : String → V) (sim : V → V → ℚ)
    (st : AppState V) (query : String) (hq : pyStrip query ≠ "")
    (hlen : st.kbEmbs.length = st.kbParagraphs.length)
    (hne : st.kbParagraphs ≠ []) :
    ∃ (k : ℕ) (v : ℚ) (p : String), (kbSims encode sim st query)[k]? = some v ∧
      (∀ x ∈ kbSims encode sim st query, x ≤ v) ∧
      (∀ j w, (kbSims encode sim st query)[j]? = some w → w = v → k ≤ j) ∧
      st.kbParagraphs[k]? = some p ∧
      answer encode sim st query = (st, AnswerOutput.answered p) := by
  have hsims_len : (kbSims encode sim st query).length = st.kbParagraphs.length := by
    simp [kbSims, simsRow, hlen]
  have hsne : kbSims encode sim st query ≠ [] := by
    intro h0
    apply hne
    rw [← List.length_eq_zero, ← hsims_len, h0]
    rfl
  obtain ⟨k, v, hk, hkv, hmax, hfirst⟩ := argmaxIdx_spec _ hsne
  have hklt : k < st.kbParagraphs.length := by
    rw [← hsims_len]
    obtain ⟨h, _⟩ := List.getElem?_eq_some_iff.mp hkv
    exact h
  obtain ⟨p, hp⟩ : ∃ p, st.kbParagraphs[k]? = some p :=
    ⟨st.kbParagraphs.get ⟨k, hklt⟩, by simp⟩
  refine ⟨k, v, p, hkv, hmax, hfirst, hp, ?_⟩
  rw [answer, if_neg hq, hk]
  simp [hp]

/-! ### Helper lemmas: the descending sort -/

theorem pctLE_trans : ∀ a b c : ℕ × (Job × ℚ), pctLE a b → pctLE b c → pctLE a c := by
  intro a b c hab hbc
  simp only [pctLE, Bool.or_eq_true, Bool.and_eq_true, decide_eq_true_eq] at hab hbc ⊢
  rcases hab with h1 | ⟨h1, h1i⟩
  · rcases hbc with h2 | ⟨h2, _⟩
    · exact Or.inl (lt_trans h1 h2)
    · exact Or.inl (h2 ▸ h1)
  · rcases hbc with h2 | ⟨h2, h2i⟩
    · exact Or.inl (h1 ▸ h2)
    · exact Or.inr ⟨h1.trans h2, le_trans h1i h2i⟩

theorem pctLE_total : ∀ a b : ℕ × (Job × ℚ), pctLE a b || pctLE b a := by
  intro a b
  simp only [pctLE, Bool.or_eq_true, Bool.and_eq_true, decide_eq_true_eq]
  rcases lt_trichotomy a.2.2 b.2.2 with h | h | h
  · exact Or.inl (Or.inl h)
  · rcases Nat.le_total a.1 b.1 with hi | hi
    · exact Or.inl (Or.inr ⟨h, hi⟩)
    · exact Or.inr (Or.inr ⟨h.symm, hi⟩)
  · exact Or.inr (Or.inl h)

theorem scoreEnum_idx_nodup (rows : List (Job × ℚ)) :
    (rows.enum.mergeSort pctLE).Pairwise (fun a b => a.1 ≠ b.1) := by
  have hperm : ((rows.enum.mergeSort pctLE).map Prod.fst).Perm (rows.enum.map Prod.fst) :=
    (List.mergeSort_perm rows.enum pctLE).map _
  have hnd : ((rows.enum.mergeSort pctLE).map Prod.fst).Nodup := by
    rw [hperm.nodup_iff, List.enum_map_fst]
    exact List.nodup_range _
  exact List.pairwise_map.mp hnd

theorem scoreEnum_pairwise (rows : List (Job × ℚ)) :
    (scoreEnum rows).Pairwise
      (fun a b => b.2.2 ≤ a.2.2 ∧ (b.2.2 = a.2.2 → b.1 < a.1)) := by
  have hs := List.sorted_mergeSort pctLE_trans pctLE_total rows.enum
  have hcomb := hs.and (scoreEnum_idx_nodup rows)
  rw [scoreEnum, List.pairwise_reverse]
  refine hcomb.imp ?_
  intro a b hab
  obtain ⟨h1, h2⟩ := hab
  simp only [pctLE, Bool.or_eq_true, Bool.and_eq_true, decide_eq_true_eq] at h1
  rcases h1 with h1 | ⟨h1e, h1i⟩
  · exact ⟨le_of_lt h1, fun he => absurd he (ne_of_lt h1)⟩
  · exact ⟨le_of_eq h1e, fun _ => lt_of_le_of_ne h1i h2⟩

theorem sort_values_desc_sorted (rows : List (Job × ℚ)) :
    (sort_values_desc rows).Pairwise (fun a b => b.2 ≤ a.2) := by
  rw [sort_values_desc, List.pairwise_map]
  exact (scoreEnum_pairwise rows).imp (fun h => h.1)

theorem sort_values_desc_perm (rows : List (Job × ℚ)) :
    (sort_values_desc rows).Perm rows := by
  have h1 : (scoreEnum rows).Perm rows.enum :=
    (List.reverse_perm _).trans (List.mergeSort_perm rows.enum pctLE)
  have h2 := h1.map (fun p : ℕ × (Job × ℚ) => p.2)
  refine h2.trans ?_
  rw [show ((fun p : ℕ × (Job × ℚ) => p.2)) = Prod.snd from rfl, List.enum_map_snd]

/-! ### Concrete instances used by witnesses and counterexamples -/

/-- A one-row job table used for concrete runs of the pipeline. -/
def jobW : Job := { title := "Data Analyst", clean_description := "Requires sql and excel" }

/-- A concrete loaded state: one job, two knowledge-base paragraphs.  The
embedding type is `Unit` and the external similarity is the constant 1/2
(50% after scaling), which makes every similarity computation exact. -/
def stW : AppState Unit :=
  { dfRows := [jobW]
    matchPct := none
    jobEmbs := [()]
    skillsList := ["sql", "excel"]
    kbParagraphs := ["P0", "P1"]
    kbEmbs := [(), ()] }

/-- A concrete loaded state with a single knowledge-base paragraph. -/
def stK1 : AppState Unit :=
  { dfRows := []
    matchPct := none
    jobEmbs := []
    skillsList := []
    kbParagraphs := ["Only paragraph"]
    kbEmbs := [()] }

/-- Concrete stand-in for the external sentence encoder. -/
def encodeW : String → Unit := fun _ => ()

/-- Concrete stand-in for the external cosine similarity: constantly 1/2. -/
def simW : Unit → Unit → ℚ := fun _ _ => 1/2

/-- The ranked job the pipeline displays for `stW` and the resume text
"I have sql experience". -/
def rjW : RankedJob :=
  { title := "Data Analyst"
    clean_description := "Requires sql and excel"
    pct := 50
    matched := {"sql"}
    missing := {"excel"} }

theorem round2_fifty : round2 ((1:ℚ)/2 * 100) = 50 := by
  have h : ((1:ℚ)/2 * 100) = 50 := by norm_num
  rw [h, round2, roundHalfEven]
  norm_num

theorem round2_fifty_inv : round2 ((2:ℚ)⁻¹ * 100) = 50 := by
  have h : ((2:ℚ)⁻¹ * 100) = 50 := by norm_num
  rw [h, round2, roundHalfEven]
  norm_num

theorem matchPcts_stW : matchPcts encodeW simW stW "I have sql experience" = [50] := by
  simp [matchPcts, simsRow, stW, encodeW, simW, round2_fifty, round2_fifty_inv]

theorem scoreRows_stW :
    scoreRows encodeW simW stW "I have sql experience" = [(jobW, 50)] := by
  rw [scoreRows, matchPcts_stW]
  rfl

unseal List.merge List.mergeSort in
theorem matchDisplayed_stW :
    matchDisplayed encodeW simW stW "I have sql experience" = [rjW] := by
  rw [matchDisplayed, top5Ranked, scoreRows_stW]
  decide

theorem matchResume_stW :
    matchResume encodeW simW stW "I have sql experience"
      = ({ stW with matchPct := some [50] }, MatchOutput.results [rjW]) := by
  rw [matchResume, if_neg (by decide : ¬ pyStrip "I have sql experience" = "")]
  simp [matchPcts_stW, matchDisplayed_stW]

theorem kbSims_stW (q : String) : kbSims encodeW simW stW q = [1/2, 1/2] := rfl

/-! ### Claim C1 -/

/-- Claim C1: for every resume text that is non-empty after trimming, a job is
included in the returned sequence of the match handler iff it is among the
five head rows of the similarity-sorted table (top 5 by similarity) and its
similarity percentage is at least the threshold 35 and its matched-skill set
is non-empty; and the handler surfaces the explicit no-results warning
exactly when no job passes the gate, otherwise returning the displayed
sequence.  The no-results warning is an ordinary `MatchOutput` constructor,
not a raised error. -/
theorem c1_top5_threshold_gate {V : Type} (encode : String → V) (sim : V → V → ℚ)
    (st : AppState V) (t : String) (h : pyStrip t ≠ "") :
    (∀ rj, rj ∈ matchDisplayed encode sim st t ↔
        rj ∈ top5Ranked encode sim st t ∧ min_threshold ≤ rj.pct ∧ rj.matched ≠ ∅) ∧
    ((matchResume encode sim st t).2 = MatchOutput.noResults ↔
        matchDisplayed encode sim st t = []) ∧
    (matchDisplayed encode sim st t ≠ [] →
        (matchResume encode sim st t).2
          = MatchOutput.results (matchDisplayed encode sim st t)) := by
  refine ⟨?_, ?_, ?_⟩
  · intro rj
    rw [matchDisplayed, List.mem_filter]
    simp only [passesGate, Bool.and_eq_true, decide_eq_true_eq, Finset.card_pos,
      Finset.nonempty_iff_ne_empty]
  · rw [matchResume, if_neg h]
    by_cases hd : matchDisplayed encode sim st t = []
    · simp [hd]
    · simp [List.isEmpty_iff, hd]
  · intro hd
    rw [matchResume, if_neg h]
    simp [List.isEmpty_iff, hd]

/-- Witness for C1: the gate characterization instantiated at a concrete
state, resume text and ranked job. -/
theorem c1_witness :
    rjW ∈ matchDisplayed encodeW simW stW "I have sql experience" ↔
      rjW ∈ top5Ranked encodeW simW stW "I have sql experience" ∧
        min_threshold ≤ rjW.pct ∧ rjW.matched ≠ ∅ :=
  (c1_top5_threshold_gate encodeW simW stW "I have sql experience" (by decide)).1 rjW

/-! ### Claim C5 -/

/-- Claim C5: every job included in the match output carries
`matched = jobSkills ∩ userSkills` and `missing = jobSkills \ userSkills`,
where `jobSkills` is the skill set extracted from the job description and
`userSkills` the skill set extracted from the resume text (app.py
lines 140–147). -/
theorem c5_matched_missing_sets {V : Type} (encode : String → V) (sim : V → V → ℚ)
    (st : AppState V) (t : String) (rj : RankedJob)
    (h : rj ∈ matchDisplayed encode sim st t) :
    rj.matched = extract rj.clean_description st.skillsList ∩ extract t st.skillsList ∧
    rj.missing = extract rj.clean_description st.skillsList \ extract t st.skillsList := by
  rw [matchDisplayed, List.mem_filter] at h
  obtain ⟨h1, _⟩ := h
  rw [top5Ranked, List.mem_map] at h1
  obtain ⟨jp, _, rfl⟩ := h1
  exact ⟨rfl, rfl⟩

/-- Witness for C5: the displayed job of the concrete run has exactly the
intersection and difference skill sets. -/
theorem c5_witness :
    rjW.matched = extract rjW.clean_description stW.skillsList ∩
        extract "I have sql experience" stW.skillsList ∧
    rjW.missing = extract rjW.clean_description stW.skillsList \
        extract "I have sql experience" stW.skillsList :=
  c5_matched_missing_sets encodeW simW stW "I have sql experience" rjW
    (by rw [matchDisplayed_stW]; exact List.mem_singleton_self _)

/-! ### Claim C7 -/

/-- Claim C7: on input that is empty after trimming, both handlers return
their user-facing validation warning, leave the state untouched, and perform
no encoding, scoring or ranking — the equations hold for *every* encoder and
similarity function, so the result cannot depend on any encoding work, and
the outcome is the `emptyWarning` constructor, not a `raised` exception. -/
theorem c7_empty_input_validation {V : Type} (encode : String → V) (sim : V → V → ℚ)
    (st : AppState V) (t : String) (h : pyStrip t = "") :
    matchResume encode sim st t = (st, MatchOutput.emptyWarning) ∧
    answer encode sim st t = (st, AnswerOutput.emptyWarning) :=
  ⟨by rw [matchResume, if_pos h], by rw [answer, if_pos h]⟩

/-- Witness for C7 at a concrete whitespace-only input. -/
theorem c7_witness :
    matchResume encodeW simW stW "  \n  " = (stW, MatchOutput.emptyWarning) ∧
    answer encodeW simW stW "  \n  " = (stW, AnswerOutput.emptyWarning) :=
  c7_empty_input_validation encodeW simW stW "  \n  " (by decide)

/-! ### Claim C9 -/

/-- Claim C9: repeating a request with identical input against the same
loaded model instance and corpus yields identical output.  For the match
handler the second call runs on the state left by the first (which carries
the overwritten `match_percentage` column); the full result pair is
nevertheless identical because the handler never reads that column before
overwriting it.  The answer handler leaves the state unchanged, so repeating
it is literally the same call. -/
theorem c9_repeat_identical {V : Type} (encode : String → V) (sim : V → V → ℚ)
    (st : AppState V) (t q : String) :
    matchResume encode sim ((matchResume encode sim st t).1) t
        = matchResume encode sim st t ∧
    answer encode sim ((answer encode sim st q).1) q = answer encode sim st q := by
  constructor
  · by_cases h : pyStrip t = ""
    · simp only [matchResume, if_pos h]
    · simp only [matchResume, if_neg h]
      rfl
  · rw [answer_fst]

/-! ### Claim C8 -/

/-- Claim C8: for a non-empty (post-trim) query against a loaded knowledge
base (embeddings aligned with the paragraphs, at least one paragraph), the
answer handler returns the text of a knowledge-base paragraph whose stored
embedding attains the highest similarity to the encoded query, and the
returned string is one of the loaded paragraphs. -/
theorem c8_answer_highest_similarity {V : Type} (encode : String → V)
    (sim : V → V → ℚ) (st : AppState V) (q : String) (hq : pyStrip q ≠ "")
    (hlen : st.kbEmbs.length = st.kbParagraphs.length)
    (hne : st.kbParagraphs ≠ []) :
    ∃ (k : ℕ) (v : ℚ) (p : String),
      (kbSims encode sim st q)[k]? = some v ∧
      (∀ x ∈ kbSims encode sim st q, x ≤ v) ∧
      st.kbParagraphs[k]? = some p ∧ p ∈ st.kbParagraphs ∧
      (answer encode sim st q).2 = AnswerOutput.answered p := by
  obtain ⟨k, v, p, h1, h2, _, h4, h5⟩ := answer_spec encode sim st q hq hlen hne
  exact ⟨k, v, p, h1, h2, h4, List.mem_iff_getElem?.mpr ⟨k, h4⟩, by rw [h5]⟩

/-- Witness for C8: on a one-paragraph knowledge base the handler must
return that paragraph. -/
theorem c8_witness :
    (answer encodeW simW stK1 "what is this project").2
      = AnswerOutput.answered "Only paragraph" := by
  obtain ⟨k, v, p, h1, h2, h4, hmem, h5⟩ :=
    c8_answer_highest_similarity encodeW simW stK1 "what is this project"
      (by decide) rfl (by decide)
  have hp : p = "Only paragraph" := by simpa [stK1] using hmem
  rw [h5, hp]

/-! ### Claim C10 -/

/-- Claim C10: the answer handler returns the paragraph at the *first* index
attaining the maximal similarity (numpy `argmax` keeps the earliest
occurrence), so among tied maximal paragraphs the one appearing earliest in
the knowledge-base file is returned. -/
theorem c10_answer_earliest_max {V : Type} (encode : String → V)
    (sim : V → V → ℚ) (st : AppState V) (q : String) (hq : pyStrip q ≠ "")
    (hlen : st.kbEmbs.length = st.kbParagraphs.length)
    (hne : st.kbParagraphs ≠ []) :
    ∃ (k : ℕ) (v : ℚ) (p : String),
      (kbSims encode sim st q)[k]? = some v ∧
      (∀ x ∈ kbSims encode sim st q, x ≤ v) ∧
      (∀ j w, (kbSims encode sim st q)[j]? = some w → w = v → k ≤ j) ∧
      st.kbParagraphs[k]? = some p ∧
      (answer encode sim st q).2 = AnswerOutput.answered p := by
  obtain ⟨k, v, p, h1, h2, h3, h4, h5⟩ := answer_spec encode sim st q hq hlen hne
  exact ⟨k, v, p, h1, h2, h3, h4, by rw [h5]⟩

/-- Witness for C10: with two paragraphs of identical similarity the handler
returns the first one. -/
theorem c10_witness :
    (answer encodeW simW stW "how does matching work").2
      = AnswerOutput.answered "P0" := by
  obtain ⟨k, v, p, h1, h2, h3, h4, h5⟩ :=
    c10_answer_earliest_max encodeW simW stW "how does matching work"
      (by decide) rfl (by decide)
  rw [kbSims_stW] at h1 h3
  have hv : (1:ℚ)/2 = v := by
    rcases k with _ | _ | k
    · simpa using h1
    · simpa using h1
    · simp at h1
  have hk0 : k = 0 := Nat.le_zero.mp (h3 0 (1/2) rfl hv)
  subst hk0
  have hp : p = "P0" := (by simpa [stW] using h4 : "P0" = p).symm
  rw [h5, hp]

/-! ### Claim C2 -/

/-- Claim C2 (amended): for every query, the similarity scoring of the job
corpus returns exactly one (entry, similarity) pair per corpus item, each
exactly once (a permutation of the zipped table, one pair per job row),
ordered by similarity descending.  These are the properties shared by every
sort kind pandas may use.  The claimed insertion-order tie rule is not a
property of the program: ties between equal similarities follow no
guaranteed order (the descending sort reverses an ascending argsort whose
tie behaviour is kind-dependent), and `c2_counterexample` exhibits a
two-item tie returned in *reversed* insertion order. -/
theorem c2_score_ordering_amended {V : Type} (encode : String → V)
    (sim : V → V → ℚ) (st : AppState V) (t : String)
    (hlen : st.jobEmbs.length = st.dfRows.length) :
    (sort_values_desc (scoreRows encode sim st t)).Perm (scoreRows encode sim st t) ∧
    (scoreRows encode sim st t).length = st.dfRows.length ∧
    (sort_values_desc (scoreRows encode sim st t)).Pairwise (fun a b => b.2 ≤ a.2) := by
  refine ⟨sort_values_desc_perm _, ?_, sort_values_desc_sorted _⟩
  simp [scoreRows, matchPcts, simsRow, hlen]

/-- Witness for C2 (amended) at the concrete one-job state. -/
theorem c2_witness :
    (sort_values_desc (scoreRows encodeW simW stW "I have sql experience")).Perm
        (scoreRows encodeW simW stW "I have sql experience") ∧
    (scoreRows encodeW simW stW "I have sql experience").length = stW.dfRows.length ∧
    (sort_values_desc (scoreRows encodeW simW stW "I have sql experience")).Pairwise
        (fun a b => b.2 ≤ a.2) :=
  c2_score_ordering_amended encodeW simW stW "I have sql experience" rfl

/-- First job of the tied pair used to refute the stable-tie-order claim. -/
def jobA : Job := { title := "Job A", clean_description := "python" }

/-- Second job of the tied pair used to refute the stable-tie-order claim. -/
def jobB : Job := { title := "Job B", clean_description := "sql" }

unseal List.merge List.mergeSort in
/-- Counterexample to C2 as stated: two corpus items with equal similarity
come back with item B (inserted second) listed before item A (inserted
first) — the opposite of the claimed insertion-order tie-breaking.  At this
size the model is exact: a two-element array is far below numpy's
insertion-sort cutoff, where the ascending argsort is stable, and pandas
reverses that indexer for the descending sort. -/
theorem c2_counterexample :
    sort_values_desc [(jobA, 50), (jobB, 50)] = [(jobB, 50), (jobA, 50)] ∧
    sort_values_desc [(jobA, 50), (jobB, 50)] ≠ [(jobA, 50), (jobB, 50)] := by
  decide

/-! ### Claim C3 -/

/-- Counterexample to C3 as stated: a concrete non-empty match request after
which the shared process-wide state differs from the pre-request state — the
handler wrote the `match_percentage` column into the shared job table
(app.py line 131). -/
theorem c3_counterexample :
    (matchResume encodeW simW stW "I have sql experience").1 ≠ stW := by
  rw [matchResume_stW]
  decide

/-- Claim C3 (amended): the answer handler never mutates shared state, and
the match handler mutates exactly one piece of shared state: it overwrites
the derived `df["match_percentage"]` column of the shared job table; all
other loaded resources (job rows, job embeddings, skill vocabulary,
knowledge-base paragraphs and embeddings) are unchanged by every request. -/
theorem c3_mutation_amended {V : Type} (encode : String → V) (sim : V → V → ℚ)
    (st : AppState V) (t q : String) (h : pyStrip t ≠ "") :
    (matchResume encode sim st t).1
        = { st with matchPct := some (matchPcts encode sim st t) } ∧
    (matchResume encode sim st t).1.dfRows = st.dfRows ∧
    (matchResume encode sim st t).1.jobEmbs = st.jobEmbs ∧
    (matchResume encode sim st t).1.skillsList = st.skillsList ∧
    (matchResume encode sim st t).1.kbParagraphs = st.kbParagraphs ∧
    (matchResume encode sim st t).1.kbEmbs = st.kbEmbs ∧
    (answer encode sim st q).1 = st := by
  have h1 : (matchResume encode sim st t).1
      = { st with matchPct := some (matchPcts encode sim st t) } := by
    rw [matchResume, if_neg h]
  exact ⟨h1, by rw [h1], by rw [h1], by rw [h1], by rw [h1], by rw [h1],
    answer_fst encode sim st q⟩

/-- Witness for C3 (amended) at the concrete state and inputs. -/
theorem c3_witness :
    (matchResume encodeW simW stW "I have sql experience").1
        = { stW with
            matchPct := some (matchPcts encodeW simW stW "I have sql experience") } ∧
    (matchResume encodeW simW stW "I have sql experience").1.dfRows = stW.dfRows ∧
    (matchResume encodeW simW stW "I have sql experience").1.jobEmbs = stW.jobEmbs ∧
    (matchResume encodeW simW stW "I have sql experience").1.skillsList
        = stW.skillsList ∧
    (matchResume encodeW simW stW "I have sql experience").1.kbParagraphs
        = stW.kbParagraphs ∧
    (matchResume encodeW simW stW "I have sql experience").1.kbEmbs = stW.kbEmbs ∧
    (answer encodeW simW stW "hello").1 = stW :=
  c3_mutation_amended encodeW simW stW "I have sql experience" "hello" (by decide)

/-! ### Claim C4 -/

/-- Counterexample to C4 as stated: the loader accepts a configuration whose
knowledge base is empty (no fatal rejection at load time), and the very
first non-empty query then fails per query — sklearn's `cosine_similarity`
raises `ValueError` on the zero-sample embedding matrix at app.py line 183,
before `argmax` runs. -/
theorem c4_counterexample :
    (answerChecked encodeW simW (load_all_resources encodeW [] [] "" "") "hello").2
      = AnswerOutput.raised "ValueError: Found array with 0 sample(s)" := by
  decide

/-- Claim C4 (amended): zero-entry corpora are *not* rejected at load time —
`load_all_resources` performs no validation.  The failure surfaces per query
instead, inside sklearn's `cosine_similarity` input validation: with an
empty job corpus every non-empty match request raises `ValueError` at
line 130 (before the column write and before any warning), and with an
empty knowledge base every non-empty query raises `ValueError` at line 183
(before `argmax` runs).  In both cases the shared state is left unchanged
by the failing request. -/
theorem c4_no_load_rejection_amended {V : Type} (encode : String → V)
    (sim : V → V → ℚ) (skillsContent kbContent : String)
    (q t : String) (hq : pyStrip q ≠ "") (ht : pyStrip t ≠ "")
    (hkb : loadParagraphs kbContent = []) :
    answerChecked encode sim
        (load_all_resources encode [] [] skillsContent kbContent) q
      = (load_all_resources encode [] [] skillsContent kbContent,
          AnswerOutput.raised "ValueError: Found array with 0 sample(s)") ∧
    matchResumeChecked encode sim
        (load_all_resources encode [] [] skillsContent kbContent) t
      = (load_all_resources encode [] [] skillsContent kbContent,
          MatchOutput.raised "ValueError: Found array with 0 sample(s)") := by
  constructor
  · rw [answerChecked, if_neg hq]
    have hs : (load_all_resources encode ([] : List Job) ([] : List V)
        skillsContent kbContent).kbEmbs = [] := by
      simp [load_all_resources, hkb]
    rw [hs, cosSimChecked]
    rfl
  · rw [matchResumeChecked, if_neg ht]
    rfl

/-- Witness for C4 (amended) at concrete empty resource files. -/
theorem c4_witness :
    answerChecked encodeW simW (load_all_resources encodeW [] [] "" "") "hello"
      = (load_all_resources encodeW [] [] "" "",
          AnswerOutput.raised "ValueError: Found array with 0 sample(s)") ∧
    matchResumeChecked encodeW simW (load_all_resources encodeW [] [] "" "") "resume"
      = (load_all_resources encodeW [] [] "" "",
          MatchOutput.raised "ValueError: Found array with 0 sample(s)") :=
  c4_no_load_rejection_amended encodeW simW "" "" "hello" "resume"
    (by decide) (by decide) (by decide)

/-! ### Claim C6 -/

/-- Counterexample to C6 as stated: the vocabulary containing only the empty
string is a non-empty vocabulary, yet `extract "" {""}` returns `{""}`, not
the empty set — in Python, `"" in ""` is `True`. -/
theorem c6_counterexample :
    extract "" [""] = {""} ∧ extract "" [""] ≠ (∅ : Finset String) := by
  decide

/-- Claim C6 (amended): extraction lower-cases the input text and returns
exactly the vocabulary terms occurring as contiguous substrings of the
lower-cased text; `extract "I know Python and SQL" {python, sql, java}`
returns `{python, sql}`; and `extract ""` returns the empty set for every
vocabulary whose terms are all non-empty (as guaranteed for the vocabulary
the loader builds, which drops blank lines). -/
theorem c6_extract_amended (text : String) (vocab : List String)
    (hv : ∀ s ∈ vocab, s ≠ "") :
    (∀ s, s ∈ extract text vocab ↔ s ∈ vocab ∧ s.data <:+: (pyLower text).data) ∧
    extract "I know Python and SQL" ["python", "sql", "java"] = {"python", "sql"} ∧
    extract "" vocab = ∅ := by
  refine ⟨?_, by decide, ?_⟩
  · intro s
    simp [extract, List.mem_filter, pyIn]
  · rw [extract]
    have hfil : vocab.filter (fun s => pyIn s (pyLower "")) = [] := by
      rw [List.filter_eq_nil_iff]
      intro s hs
      have hne := hv s hs
      simp only [pyIn, decide_eq_true_eq]
      intro hinf
      have hd : s.data = [] := by simpa [pyLower] using hinf
      apply hne
      cases s
      simp_all
    rw [hfil]
    rfl

/-- Witness for C6 (amended): the characterization at a concrete term, and
the empty-text case on the concrete three-term vocabulary. -/
theorem c6_witness :
    ("python" ∈ extract "I know Python and SQL" ["python", "sql", "java"] ↔
      "python" ∈ ["python", "sql", "java"] ∧
        "python".data <:+: (pyLower "I know Python and SQL").data) ∧
    extract "" ["python", "sql", "java"] = ∅ :=
  ⟨(c6_extract_amended "I know Python and SQL" ["python", "sql", "java"]
      (by decide)).1 "python",
   (c6_extract_amended "I know Python and SQL" ["python", "sql", "java"]
      (by decide)).2.2⟩
